import Mathlib

/-!
# Verification of the Healthcare-Voice-Agent real-time relay core

Shallow embedding of the relay session in `app/webhooks/websocket_events.py`
(`handle_voice_websocket` with its three inner loops `vonage_to_deepgram`,
`deepgram_to_vonage`, `stream_to_vonage`), of the Deepgram agent client in
`app/services/deepgram_flux.py`, and of the tool executor
`AppointmentAgent.execute_function` in `app/services/appointment_agent.py`.

Bytes are modelled as `Nat`; byte strings as `List Nat`.  The loops are
cooperative `async` tasks, so the interleaving of pacer operations is
sequential at `await` boundaries; we model the shared pacer state as a value
threaded through an explicit operation sequence.
-/

/-! ## Audio Pacer

The shared state of `handle_voice_websocket`:
`audio_buffer = bytearray()` and `buffer_index = 0`.
-/

structure PacerState where
  audio_buffer : List Nat
  buffer_index : Nat
  deriving DecidableEq, Repr

/-- Initial pacer state: `audio_buffer = bytearray(); buffer_index = 0`. -/
def initPacer : PacerState := ⟨[], 0⟩

/-- `audio_buffer.extend(audio_data)` — performed by `deepgram_to_vonage`
on an `audio` message. -/
def PacerState.append (s : PacerState) (data : List Nat) : PacerState :=
  { s with audio_buffer := s.audio_buffer ++ data }

/-- `audio_buffer.clear()` — performed by `deepgram_to_vonage` on
`UserStartedSpeaking` (barge-in).  Note the source clears only the buffer;
`buffer_index` is left untouched. -/
def PacerState.clear (s : PacerState) : PacerState :=
  { s with audio_buffer := [] }

/-- 640 bytes = 20 ms of 16 kHz linear16 audio (`stream_to_vonage`). -/
def frameSize : Nat := 640

/-- One tick of `stream_to_vonage`:

```
if len(audio_buffer) > buffer_index:
    chunk = bytes(audio_buffer[buffer_index:buffer_index + 640])
    if len(chunk) > 0:
        await websocket.send_bytes(chunk)
        buffer_index += 640
    if buffer_index > len(audio_buffer):
        buffer_index = len(audio_buffer)
```

Returns the updated state and the chunk written to the Vonage websocket
(`[]` when nothing is sent this tick). -/
def PacerState.nextFrame (s : PacerState) : PacerState × List Nat :=
  if s.buffer_index < s.audio_buffer.length then
    let chunk := (s.audio_buffer.drop s.buffer_index).take frameSize
    if 0 < chunk.length then
      let idx0 := s.buffer_index + frameSize
      let idx1 := if s.audio_buffer.length < idx0 then s.audio_buffer.length else idx0
      ({ s with buffer_index := idx1 }, chunk)
    else
      let idx1 := if s.audio_buffer.length < s.buffer_index then s.audio_buffer.length
                  else s.buffer_index
      ({ s with buffer_index := idx1 }, [])
  else
    (s, [])

/-! Sequential interleavings of the three pacer operations. -/

inductive PacerOp where
  | append (data : List Nat)
  | next
  | clear
  deriving DecidableEq, Repr

/-- Run a sequence of pacer operations, collecting the chunk produced by
each `next` tick (`[]` when that tick sent nothing). -/
def runOps (s : PacerState) : List PacerOp → PacerState × List (List Nat)
  | [] => (s, [])
  | PacerOp.append d :: ops => runOps (s.append d) ops
  | PacerOp.clear :: ops => runOps s.clear ops
  | PacerOp.next :: ops =>
      let r := s.nextFrame
      let rest := runOps r.1 ops
      (rest.1, r.2 :: rest.2)

/-- All bytes appended over an operation sequence, in order. -/
def appendedBytes : List PacerOp → List Nat
  | [] => []
  | PacerOp.append d :: ops => d ++ appendedBytes ops
  | _ :: ops => appendedBytes ops

/-! ## The inbound-from-agent loop (`deepgram_to_vonage`)

`DeepgramVoiceAgent.receive_messages` yields `{"type": "audio", "data": b}`
for binary frames and the parsed JSON message otherwise; the loop dispatches
on the `type` string.  Only the `type` and `data` fields are consulted. -/

structure AgentMessage where
  type : String
  data : List Nat := []
  deriving DecidableEq, Repr

/-- Observable effects the loop body can perform besides mutating the
pacer: `agent.websocket.send(InjectUserMessage ...)`, a dispatch to the
function handler, `send_function_result`, and a log line.  The relay loop
in the source only ever produces the first and the last. -/
inductive RelayAction where
  | injectUserMessage (content : String)
  | toolDispatch (function_name : String) (function_call_id : String)
  | sendFunctionResult (function_call_id : String)
  | logEvent (t : String)
  deriving DecidableEq, Repr

/-- Loop closure state of `deepgram_to_vonage`: the shared pacer, the local
`settings_applied` flag, and the greeting carried by the enclosing
`DeepgramVoiceAgent` (`agent.greeting` — visible to the closure but never
consulted by the loop). -/
structure AgentLoopState where
  pacer : PacerState
  settings_applied : Bool
  greeting : Option String
  deriving DecidableEq, Repr

/-- Lines 129-135: `if msg_type == 'SettingsApplied' and not settings_applied:`
sets the flag and sends the `InjectUserMessage "hello"` trigger.  Note the
source does not consult the greeting here. -/
def settingsStep (st : AgentLoopState) (msg : AgentMessage) :
    AgentLoopState × List RelayAction :=
  if msg.type = "SettingsApplied" ∧ st.settings_applied = false then
    ({ st with settings_applied := true }, [RelayAction.injectUserMessage "hello"])
  else (st, [])

/-- One iteration of the `deepgram_to_vonage` body (lines 127-151): the
standalone SettingsApplied `if`, then the `audio` / `UserStartedSpeaking` /
catch-all `elif` chain (`History` and `ConversationText` are silently
skipped; everything else, including `Error` and `FunctionCallRequest`
messages, is only logged). -/
def handleAgentMessage (st : AgentLoopState) (msg : AgentMessage) :
    AgentLoopState × List RelayAction :=
  let r := settingsStep st msg
  let st1 := r.1
  let acts1 := r.2
  if msg.type = "audio" then
    if msg.data = [] then (st1, acts1)
    else ({ st1 with pacer := st1.pacer.append msg.data }, acts1)
  else if msg.type = "UserStartedSpeaking" then
    ({ st1 with pacer := st1.pacer.clear }, acts1)
  else if msg.type = "History" ∨ msg.type = "ConversationText" then
    (st1, acts1)
  else
    (st1, acts1 ++ [RelayAction.logEvent msg.type])

/-- The loop over a finite stream of agent messages. -/
def runAgentLoop : AgentLoopState → List AgentMessage → AgentLoopState × List RelayAction
  | st, [] => (st, [])
  | st, m :: ms =>
      let r := handleAgentMessage st m
      let rest := runAgentLoop r.1 ms
      (rest.1, r.2 ++ rest.2)

/-- The initial-conversation trigger (`InjectUserMessage`) among the loop
actions. -/
def isTrigger : RelayAction → Bool
  | RelayAction.injectUserMessage _ => true
  | _ => false

/-- Actions that would constitute a tool round-trip. -/
def isToolAction : RelayAction → Bool
  | RelayAction.toolDispatch _ _ => true
  | RelayAction.sendFunctionResult _ => true
  | _ => false

/-! ## The session handler (`handle_voice_websocket`, lines 22-197) -/

/-- The fields of a `call_contexts` entry consulted by the handler. -/
structure CallContext where
  success : Bool
  system_prompt : String
  functions : List String
  greeting : Option String
  deriving DecidableEq, Repr

/-- Observable session-level actions of `handle_voice_websocket`. -/
inductive SessionAction where
  | wsAccept
  | wsClose (code : Nat)
  | agentConnect
  | runLoops
  | agentDisconnect
  deriving DecidableEq, Repr

/-- `call_contexts.get(call_id)` over the module-level dict, modelled as an
association list. -/
def storeGet : List (String × CallContext) → String → Option CallContext
  | [], _ => none
  | (k, v) :: rest, cid => if k = cid then some v else storeGet rest cid

/-- `handle_voice_websocket`: accept; reject with close code 1008 when the
context is missing or not successful; connect the agent (close 1011 on
failure); otherwise gather the three loops and, in the `finally` block,
disconnect the agent.  `connect_ok` models whether `agent.connect()`
succeeds and `_loops_error` whether some gathered loop exits via error (the
`finally` block runs either way).  Returns the action trace and the final
`call_contexts` store — note no branch deletes the entry. -/
def handle_voice_websocket (store : List (String × CallContext)) (call_id : String)
    (connect_ok : Bool) (_loops_error : Bool) :
    List SessionAction × List (String × CallContext) :=
  match storeGet store call_id with
  | none => ([SessionAction.wsAccept, SessionAction.wsClose 1008], store)
  | some context =>
    if context.success = false then
      ([SessionAction.wsAccept, SessionAction.wsClose 1008], store)
    else if connect_ok = false then
      ([SessionAction.wsAccept, SessionAction.wsClose 1011], store)
    else
      ([SessionAction.wsAccept, SessionAction.agentConnect, SessionAction.runLoops,
        SessionAction.agentDisconnect], store)

/-- Concrete valid call context used by the C4 evaluation. -/
def ctxExample : CallContext :=
  ⟨true, "You are a friendly medical office assistant.", ["confirm_appointment"], none⟩

/-! ## The tool executor (`AppointmentAgent.execute_function`, lines 126-183) -/

/-- Minimal JSON value type for tool results. -/
inductive JsonVal where
  | str (s : String)
  | num (n : Int)
  | boolean (b : Bool)
  | null
  | arr (xs : List JsonVal)
  | obj (fields : List (String × JsonVal))

/-- The FHIR OperationOutcome object built at several places in
`execute_function`. -/
def operationOutcome (severity code diagnostics : String) : JsonVal :=
  JsonVal.obj
    [("resourceType", JsonVal.str "OperationOutcome"),
     ("issue", JsonVal.arr
        [JsonVal.obj
          [("severity", JsonVal.str severity),
           ("code", JsonVal.str code),
           ("diagnostics", JsonVal.str diagnostics)]])]

/-- External effects reachable from `execute_function`: the database-backed
`update_appointment_tool` (appointment_tools.py) and `json.loads`.  Either
may raise; `Except.error` carries the exception text. -/
structure ToolEnv where
  update_appointment_tool : String → List (String × String) → Except String String
  json_loads : String → Except String JsonVal

/-- `arguments[key]` / `arguments.get(key)` over the argument mapping. -/
def argGet : List (String × String) → String → Option String
  | [], _ => none
  | (k, v) :: rest, key => if k = key then some v else argGet rest key

/-- The `try`-block body of `execute_function` (lines 133-172).
`Except.error` is a raised exception: the KeyError from a missing
`appointment_id`, or whatever `update_appointment_tool` / `json.loads`
raise. -/
def execute_function_body (env : ToolEnv) (function_name : String)
    (arguments : List (String × String)) : Except String JsonVal :=
  if function_name = "confirm_appointment" then
    match argGet arguments "appointment_id" with
    | none => Except.error "KeyError: appointment_id"
    | some aid =>
      match env.update_appointment_tool aid [("status", "booked")] with
      | Except.error e => Except.error e
      | Except.ok result_json => env.json_loads result_json
  else if function_name = "cancel_appointment" then
    match argGet arguments "appointment_id" with
    | none => Except.error "KeyError: appointment_id"
    | some aid =>
      let reason := (argGet arguments "reason").getD
          "Patient requested cancellation via phone"
      match env.update_appointment_tool aid
          [("status", "cancelled"), ("reason", reason)] with
      | Except.error e => Except.error e
      | Except.ok result_json => env.json_loads result_json
  else if function_name = "request_reschedule" then
    Except.ok (operationOutcome "information" "informational"
      "Reschedule request noted. Office will call back to schedule.")
  else
    Except.ok (operationOutcome "error" "not-supported"
      ("Unknown function: " ++ function_name))

/-- `execute_function`: the dispatch wrapped in `try/except Exception` —
any raised exception becomes a structured OperationOutcome error payload. -/
def execute_function (env : ToolEnv) (function_name : String)
    (arguments : List (String × String)) : JsonVal :=
  match execute_function_body env function_name arguments with
  | Except.ok v => v
  | Except.error e => operationOutcome "error" "exception" e

/-- A pathological environment in which every inner tool raises. -/
def envBoom : ToolEnv :=
  ⟨fun _ _ => Except.error "boom", fun _ => Except.error "bad json"⟩

/-! ## Basic pacer lemmas -/

theorem nextFrame_of_lt (s : PacerState)
    (h : s.buffer_index < s.audio_buffer.length) :
    s.nextFrame =
      ({ s with buffer_index := min (s.buffer_index + frameSize) s.audio_buffer.length },
       (s.audio_buffer.drop s.buffer_index).take frameSize) := by
  have hchunk : 0 < ((s.audio_buffer.drop s.buffer_index).take frameSize).length := by
    simp [List.length_take, List.length_drop, frameSize]
    omega
  simp only [PacerState.nextFrame, if_pos h, if_pos hchunk]
  have : (if s.audio_buffer.length < s.buffer_index + frameSize then s.audio_buffer.length
          else s.buffer_index + frameSize)
        = min (s.buffer_index + frameSize) s.audio_buffer.length := by
    rcases Nat.lt_or_ge s.audio_buffer.length (s.buffer_index + frameSize) with h1 | h1
    · simp [if_pos h1, Nat.min_eq_right (Nat.le_of_lt h1)]
    · simp [if_neg (Nat.not_lt.mpr h1), Nat.min_eq_left h1]
  rw [this]

theorem nextFrame_of_ge (s : PacerState)
    (h : ¬ s.buffer_index < s.audio_buffer.length) :
    s.nextFrame = (s, []) := by
  simp [PacerState.nextFrame, if_neg h]

/-! ## C2 / C6 : the barge-in clear -/

/-- Amended C2: `clear()` empties the buffer but leaves the read cursor
(`buffer_index`) unchanged — it is not reset to zero. -/
theorem clear_empties_buffer_keeps_cursor (s : PacerState) :
    s.clear.audio_buffer = [] ∧ s.clear.buffer_index = s.buffer_index :=
  ⟨rfl, rfl⟩

/-- Counterexample to C2 as stated: append two bytes, send one frame
(cursor advances to 2), then barge-in clear.  The buffer is empty but the
cursor is 2, not 0. -/
theorem clear_cursor_nonzero_cex :
    ((initPacer.append [1, 2]).nextFrame.1.clear).audio_buffer = [] ∧
    ((initPacer.append [1, 2]).nextFrame.1.clear).buffer_index = 2 ∧
    ((initPacer.append [1, 2]).nextFrame.1.clear).buffer_index ≠ 0 := by
  refine ⟨rfl, ?_, ?_⟩ <;> decide

/-- A `clear` followed immediately by a `nextFrame` tick sends nothing,
whatever was buffered before the clear. -/
theorem clear_then_next_empty (s : PacerState) :
    s.clear.nextFrame.2 = [] := by
  have h : ¬ s.clear.buffer_index < s.clear.audio_buffer.length := by
    simp [PacerState.clear]
  rw [nextFrame_of_ge _ h]

/-! ## C8 : outbound frame sizes -/

/-- Amended C8: a tick sends `s.nextFrame.2` exactly when it is non-empty,
so at most one frame per tick and never a zero-byte frame; the frame holds
`min frameSize unread` bytes — exactly `frameSize` (640) when at least a
full frame of unread audio remains, fewer when less remains, zero (nothing
sent) when none remains. -/
theorem frame_length_eq (s : PacerState) :
    s.nextFrame.2.length = min frameSize (s.audio_buffer.length - s.buffer_index) := by
  rcases Nat.lt_or_ge s.buffer_index s.audio_buffer.length with h | h
  · rw [nextFrame_of_lt s h]
    simp [List.length_take, List.length_drop]
  · rw [nextFrame_of_ge s (Nat.not_lt.mpr h)]
    simp
    omega

/-- Counterexample to C8 as stated: with 40 unread bytes buffered, the tick
sends a non-empty frame of 40 bytes, not 640. -/
theorem short_frame_cex :
    (initPacer.append (List.replicate 40 7)).nextFrame.2 ≠ [] ∧
    (initPacer.append (List.replicate 40 7)).nextFrame.2.length = 40 := by
  constructor <;> decide

/-! ## Helper lemmas for the pacer invariant -/

theorem take_drop_self (c : Nat) (l : List Nat) : (l.take c).drop c = [] := by
  apply List.drop_eq_nil_of_le
  rw [List.length_take]
  exact min_le_left _ _

theorem drop_append_left (l₁ l₂ : List Nat) (c : Nat) (h : c ≤ l₁.length) :
    (l₁ ++ l₂).drop c = l₁.drop c ++ l₂ := by
  rw [List.drop_append_eq_append_drop, Nat.sub_eq_zero_of_le h, List.drop_zero]

theorem take_min_length (l : List Nat) (m : Nat) :
    l.take (min m l.length) = l.take m := by
  rcases Nat.le_total m l.length with h | h
  · rw [Nat.min_eq_left h]
  · rw [Nat.min_eq_right h, List.take_length, List.take_of_length_le h]

theorem sent_advance (l : List Nat) (idx c : Nat) (hidx : idx < l.length) (hc : c ≤ idx) :
    (l.take idx).drop c ++ (l.drop idx).take frameSize
      = (l.take (min (idx + frameSize) l.length)).drop c := by
  rw [take_min_length, List.take_add,
    drop_append_left _ _ _ (by
      rw [List.length_take]
      exact le_min hc (le_of_lt (lt_of_le_of_lt hc hidx)))]

theorem drop_take_advance (l : List Nat) (idx : Nat) :
    (l.drop idx).take frameSize ++ l.drop (min (idx + frameSize) l.length) = l.drop idx := by
  rcases Nat.le_total (idx + frameSize) l.length with h | h
  · rw [Nat.min_eq_left h]
    have h2 : l.drop (idx + frameSize) = (l.drop idx).drop frameSize := by
      rw [List.drop_drop]
    rw [h2, List.take_append_drop]
  · rw [Nat.min_eq_right h, List.drop_eq_nil_of_le (le_refl _), List.append_nil]
    exact List.take_of_length_le (by rw [List.length_drop]; omega)

/-- The invariant behind C3 and C5: running a clear-free operation sequence
from a state whose cursor is at least `c` (and either exactly `c`, as just
after a barge-in clear, or within the buffer) accumulates exactly the
appended bytes in the buffer, keeps the cursor at or beyond `c`, and the
bytes emitted are exactly the part of the final buffer between offset `c`
and the final cursor, minus what had been emitted before. -/
theorem run_sent_eq (c : Nat) (ops : List PacerOp) :
    ∀ s : PacerState, PacerOp.clear ∉ ops → c ≤ s.buffer_index →
      (s.buffer_index = c ∨ s.buffer_index ≤ s.audio_buffer.length) →
      (runOps s ops).1.audio_buffer = s.audio_buffer ++ appendedBytes ops
      ∧ c ≤ (runOps s ops).1.buffer_index
      ∧ ((runOps s ops).1.buffer_index = c ∨
          (runOps s ops).1.buffer_index ≤ (runOps s ops).1.audio_buffer.length)
      ∧ (s.audio_buffer.take s.buffer_index).drop c ++ (runOps s ops).2.flatten
          = ((runOps s ops).1.audio_buffer.take (runOps s ops).1.buffer_index).drop c := by
  induction ops with
  | nil =>
    intro s _ h1 h2
    exact ⟨by simp [runOps, appendedBytes], by simpa [runOps] using h1,
      by simpa [runOps] using h2, by simp [runOps]⟩
  | cons op ops ih =>
    intro s hops h1 h2
    have hops2 : PacerOp.clear ∉ ops := fun h => hops (List.mem_cons_of_mem _ h)
    cases op with
    | clear => exact absurd (List.mem_cons_self _ _) hops
    | append d =>
      have h2a : (s.append d).buffer_index = c ∨
          (s.append d).buffer_index ≤ (s.append d).audio_buffer.length := by
        rcases h2 with h | h
        · exact Or.inl h
        · right
          simp only [PacerState.append, List.length_append]
          omega
      obtain ⟨hb, hcc, hd, he⟩ := ih (s.append d) hops2 h1 h2a
      have hrw : runOps s (PacerOp.append d :: ops) = runOps (s.append d) ops := rfl
      rw [hrw]
      refine ⟨?_, hcc, hd, ?_⟩
      · rw [hb]
        simp [PacerState.append, appendedBytes, List.append_assoc]
      · rw [← he]
        have hprev : ((s.append d).audio_buffer.take (s.append d).buffer_index).drop c
            = (s.audio_buffer.take s.buffer_index).drop c := by
          rcases h2 with h | h
          · simp only [PacerState.append]
            rw [h, take_drop_self, take_drop_self]
          · simp only [PacerState.append]
            rw [List.take_append_of_le_length h]
        rw [hprev]
    | next =>
      rcases Nat.lt_or_ge s.buffer_index s.audio_buffer.length with hlt | hge
      · have hnf := nextFrame_of_lt s hlt
        have h1a : c ≤ (min (s.buffer_index + frameSize) s.audio_buffer.length) :=
          le_min (le_trans h1 (Nat.le_add_right _ _)) (le_trans h1 (le_of_lt hlt))
        obtain ⟨hb, hcc, hd, he⟩ := ih
          { s with buffer_index := min (s.buffer_index + frameSize) s.audio_buffer.length }
          hops2 h1a (Or.inr (min_le_right _ _))
        have hrw : runOps s (PacerOp.next :: ops)
            = ((runOps { s with
                  buffer_index := min (s.buffer_index + frameSize) s.audio_buffer.length } ops).1,
               (s.audio_buffer.drop s.buffer_index).take frameSize
                 :: (runOps { s with
                  buffer_index := min (s.buffer_index + frameSize) s.audio_buffer.length } ops).2) := by
          simp [runOps, hnf]
        rw [hrw]
        refine ⟨hb, hcc, hd, ?_⟩
        rw [List.flatten_cons, ← List.append_assoc,
          sent_advance s.audio_buffer s.buffer_index c hlt h1]
        exact he
      · have hnf := nextFrame_of_ge s (Nat.not_lt.mpr hge)
        obtain ⟨hb, hcc, hd, he⟩ := ih s hops2 h1 h2
        have hrw : runOps s (PacerOp.next :: ops)
            = ((runOps s ops).1, [] :: (runOps s ops).2) := by
          simp [runOps, hnf]
        rw [hrw]
        exact ⟨hb, hcc, hd, by simpa using he⟩

theorem runOps_append_ops (s : PacerState) (ops1 ops2 : List PacerOp) :
    runOps s (ops1 ++ ops2)
      = ((runOps (runOps s ops1).1 ops2).1,
         (runOps s ops1).2 ++ (runOps (runOps s ops1).1 ops2).2) := by
  induction ops1 generalizing s with
  | nil => simp [runOps]
  | cons op ops ih =>
    cases op with
    | append d => simpa [runOps] using ih (s.append d)
    | clear => simpa [runOps] using ih s.clear
    | next => simp [runOps, ih s.nextFrame.1]

/-- Ticking at least `unread` more times drains the buffer completely. -/
theorem drain_flatten : ∀ (n : Nat) (s : PacerState),
    s.audio_buffer.length - s.buffer_index ≤ n →
    (runOps s (List.replicate n PacerOp.next)).2.flatten
      = s.audio_buffer.drop s.buffer_index := by
  intro n
  induction n with
  | zero =>
    intro s h
    rw [List.replicate_zero]
    simp only [runOps, List.flatten_nil]
    exact (List.drop_eq_nil_of_le (by omega)).symm
  | succ n ih =>
    intro s h
    rw [List.replicate_succ]
    rcases Nat.lt_or_ge s.buffer_index s.audio_buffer.length with hlt | hge
    · have hnf := nextFrame_of_lt s hlt
      have hrw : runOps s (PacerOp.next :: List.replicate n PacerOp.next)
          = ((runOps { s with
                buffer_index := min (s.buffer_index + frameSize) s.audio_buffer.length }
              (List.replicate n PacerOp.next)).1,
             (s.audio_buffer.drop s.buffer_index).take frameSize
               :: (runOps { s with
                buffer_index := min (s.buffer_index + frameSize) s.audio_buffer.length }
              (List.replicate n PacerOp.next)).2) := by
        simp [runOps, hnf]
      rw [hrw]
      have hfs : frameSize = 640 := rfl
      have hle : ({ s with
            buffer_index := min (s.buffer_index + frameSize) s.audio_buffer.length } :
            PacerState).audio_buffer.length
          - ({ s with
            buffer_index := min (s.buffer_index + frameSize) s.audio_buffer.length } :
            PacerState).buffer_index ≤ n := by
        show s.audio_buffer.length
            - min (s.buffer_index + frameSize) s.audio_buffer.length ≤ n
        rcases Nat.le_total (s.buffer_index + frameSize) s.audio_buffer.length with h1 | h1
        · rw [Nat.min_eq_left h1]; omega
        · rw [Nat.min_eq_right h1]; omega
      rw [List.flatten_cons, ih _ hle]
      show (s.audio_buffer.drop s.buffer_index).take frameSize
          ++ s.audio_buffer.drop (min (s.buffer_index + frameSize) s.audio_buffer.length)
          = s.audio_buffer.drop s.buffer_index
      exact drop_take_advance s.audio_buffer s.buffer_index
    · have hnf := nextFrame_of_ge s (Nat.not_lt.mpr hge)
      have hrw : runOps s (PacerOp.next :: List.replicate n PacerOp.next)
          = ((runOps s (List.replicate n PacerOp.next)).1,
             [] :: (runOps s (List.replicate n PacerOp.next)).2) := by
        simp [runOps, hnf]
      rw [hrw, List.flatten_cons, List.nil_append]
      exact ih s (by omega)

/-! ## C5 : no byte duplicated or dropped while no clear occurs -/

/-- C5: for every sequential interleaving of `append`s and `nextFrame`
ticks with no `clear`, the concatenation of the returned frames is a
prefix of the concatenation of all appended bytes (no duplication, no
drop, order preserved), and after enough further ticks it equals it. -/
theorem pacer_no_byte_lost (ops : List PacerOp) (hops : PacerOp.clear ∉ ops) :
    (runOps initPacer ops).2.flatten <+: appendedBytes ops
    ∧ (runOps initPacer
        (ops ++ List.replicate (appendedBytes ops).length PacerOp.next)).2.flatten
      = appendedBytes ops := by
  obtain ⟨hb, hcc, hd, he⟩ := run_sent_eq 0 ops initPacer hops (Nat.zero_le _) (Or.inl rfl)
  have hbuf : (runOps initPacer ops).1.audio_buffer = appendedBytes ops := by
    simpa [initPacer] using hb
  have hsent : (runOps initPacer ops).2.flatten
      = (runOps initPacer ops).1.audio_buffer.take (runOps initPacer ops).1.buffer_index := by
    simpa [initPacer] using he
  constructor
  · rw [hsent, hbuf]
    exact ⟨(appendedBytes ops).drop (runOps initPacer ops).1.buffer_index,
      List.take_append_drop _ _⟩
  · rw [runOps_append_ops, List.flatten_append, hsent]
    have hle : (runOps initPacer ops).1.audio_buffer.length
        - (runOps initPacer ops).1.buffer_index ≤ (appendedBytes ops).length := by
      rw [hbuf]; omega
    rw [drain_flatten _ _ hle, hbuf]
    exact List.take_append_drop _ _

/-- Witness for C5 at a concrete interleaving. -/
theorem pacer_no_byte_lost_witness :
    (runOps initPacer [PacerOp.append [1, 2, 3], PacerOp.next]).2.flatten
      <+: appendedBytes [PacerOp.append [1, 2, 3], PacerOp.next]
    ∧ (runOps initPacer
        ([PacerOp.append [1, 2, 3], PacerOp.next]
          ++ List.replicate
              (appendedBytes [PacerOp.append [1, 2, 3], PacerOp.next]).length
              PacerOp.next)).2.flatten
      = appendedBytes [PacerOp.append [1, 2, 3], PacerOp.next] :=
  pacer_no_byte_lost [PacerOp.append [1, 2, 3], PacerOp.next] (by decide)

/-! ## C3 : what the cursor-preserving clear does to later audio -/

/-- C3: after a barge-in clear taken at cursor value `c`, as long as no
further clear runs, every tick returns empty until strictly more than `c`
bytes have been appended since the clear, and the frames that are returned
concatenate to a prefix of the post-clear appended bytes with the first
`c` bytes removed — those `c` bytes are silently dropped. -/
theorem barge_in_drops_first_bytes (s : PacerState) (c : Nat) (hc : s.buffer_index = c)
    (_hpos : 0 < c) (ops : List PacerOp) (hops : PacerOp.clear ∉ ops) :
    ((appendedBytes ops).length ≤ c →
        ∀ o ∈ (runOps s.clear ops).2, o = ([] : List Nat))
    ∧ (runOps s.clear ops).2.flatten <+: (appendedBytes ops).drop c := by
  have h0 : s.clear.buffer_index = c := hc
  obtain ⟨hb, hcc, hd, he⟩ := run_sent_eq c ops s.clear hops (le_of_eq h0.symm) (Or.inl h0)
  have hbuf : (runOps s.clear ops).1.audio_buffer = appendedBytes ops := by
    simpa [PacerState.clear] using hb
  have h1 : (s.clear.audio_buffer.take s.clear.buffer_index).drop c = [] := by
    simp [PacerState.clear]
  rw [h1, List.nil_append] at he
  constructor
  · intro hlen
    rw [← List.flatten_eq_nil_iff, he, hbuf]
    apply List.drop_eq_nil_of_le
    rw [List.length_take]
    exact le_trans (min_le_right _ _) hlen
  · rw [he, hbuf, List.drop_take]
    exact ⟨((appendedBytes ops).drop c).drop ((runOps s.clear ops).1.buffer_index - c),
      List.take_append_drop _ _⟩

/-- Witness for C3: barge-in at cursor 2, then append one byte and tick. -/
theorem barge_in_drops_first_bytes_witness :
    ((appendedBytes [PacerOp.append [5], PacerOp.next]).length ≤ 2 →
        ∀ o ∈ (runOps (PacerState.mk [9, 9] 2).clear
            [PacerOp.append [5], PacerOp.next]).2, o = ([] : List Nat))
    ∧ (runOps (PacerState.mk [9, 9] 2).clear [PacerOp.append [5], PacerOp.next]).2.flatten
        <+: (appendedBytes [PacerOp.append [5], PacerOp.next]).drop 2 :=
  barge_in_drops_first_bytes (PacerState.mk [9, 9] 2) 2 rfl (by decide) _ (by decide)

/-! ## C6 : clear-then-tick yields empty, also at the event level -/

/-- C6: a clear followed immediately by a `nextFrame` tick yields the
empty result regardless of prior buffer contents; in particular, handling
a `UserStartedSpeaking` message (which performs the clear) after any
sequence of appends and before the next tick guarantees that tick sends
nothing. -/
theorem clear_then_tick_empty (s : PacerState) (st : AgentLoopState) (d : List Nat) :
    s.clear.nextFrame.2 = []
    ∧ (handleAgentMessage st (AgentMessage.mk "UserStartedSpeaking" d)).1.pacer.nextFrame.2
        = [] := by
  refine ⟨clear_then_next_empty s, ?_⟩
  have h : (handleAgentMessage st (AgentMessage.mk "UserStartedSpeaking" d)).1.pacer
      = st.pacer.clear := by
    simp [handleAgentMessage, settingsStep]
  rw [h]
  exact clear_then_next_empty _

/-! ## C7 : the synthetic "hello" trigger -/

theorem handle_preserves_applied (st : AgentLoopState) (m : AgentMessage)
    (h : st.settings_applied = true) :
    (handleAgentMessage st m).1.settings_applied = true := by
  have hs : (settingsStep st m).1 = st := by
    simp [settingsStep, h]
  simp only [handleAgentMessage, hs]
  split_ifs <;> simp [h]

theorem handle_trigger_filter (st : AgentLoopState) (m : AgentMessage) :
    (handleAgentMessage st m).2.filter isTrigger
      = if m.type = "SettingsApplied" ∧ st.settings_applied = false
        then [RelayAction.injectUserMessage "hello"] else [] := by
  simp only [handleAgentMessage, settingsStep]
  split_ifs <;> simp_all [isTrigger]

theorem handle_sets_applied (st : AgentLoopState) (m : AgentMessage)
    (h : m.type = "SettingsApplied") :
    (handleAgentMessage st m).1.settings_applied = true := by
  by_cases h2 : st.settings_applied = true
  · exact handle_preserves_applied st m h2
  · have hs : (settingsStep st m).1 = { st with settings_applied := true } := by
      simp only [Bool.not_eq_true] at h2
      simp [settingsStep, h, h2]
    simp only [handleAgentMessage, hs]
    split_ifs <;> simp

theorem no_trigger_when_applied (msgs : List AgentMessage) :
    ∀ st : AgentLoopState, st.settings_applied = true →
      (runAgentLoop st msgs).2.filter isTrigger = [] := by
  induction msgs with
  | nil => intro st _; simp [runAgentLoop]
  | cons m ms ih =>
    intro st h
    have hrw : runAgentLoop st (m :: ms)
        = ((runAgentLoop (handleAgentMessage st m).1 ms).1,
           (handleAgentMessage st m).2 ++ (runAgentLoop (handleAgentMessage st m).1 ms).2) := by
      simp [runAgentLoop]
    rw [hrw]
    simp only [List.filter_append]
    rw [handle_trigger_filter, ih _ (handle_preserves_applied st m h)]
    simp [h]

theorem trigger_count (msgs : List AgentMessage) :
    ∀ st : AgentLoopState, st.settings_applied = false →
      ((runAgentLoop st msgs).2.filter isTrigger).length
        = if msgs.any (fun m => m.type == "SettingsApplied") then 1 else 0 := by
  induction msgs with
  | nil => intro st _; simp [runAgentLoop]
  | cons m ms ih =>
    intro st h
    have hrw : runAgentLoop st (m :: ms)
        = ((runAgentLoop (handleAgentMessage st m).1 ms).1,
           (handleAgentMessage st m).2 ++ (runAgentLoop (handleAgentMessage st m).1 ms).2) := by
      simp [runAgentLoop]
    rw [hrw]
    simp only [List.filter_append, List.length_append]
    rw [handle_trigger_filter]
    by_cases hm : m.type = "SettingsApplied"
    · rw [no_trigger_when_applied ms _ (handle_sets_applied st m hm)]
      simp [hm, h]
    · have happ : (handleAgentMessage st m).1.settings_applied = false := by
        have hs : (settingsStep st m).1 = st := by
          simp [settingsStep, hm]
        simp only [handleAgentMessage, hs]
        split_ifs <;> simp [h]
      rw [ih _ happ]
      simp [hm]

/-- C7 amended: from a fresh session (flag unset), the synthetic "hello"
trigger is sent exactly once when the message stream contains a
`SettingsApplied` event and never otherwise — irrespective of whether a
greeting was configured (quantified `g`): the loop does not consult the
greeting. -/
theorem hello_trigger_once (g : Option String) (msgs : List AgentMessage) :
    ((runAgentLoop (AgentLoopState.mk initPacer false g) msgs).2.filter isTrigger).length
      = if msgs.any (fun m => m.type == "SettingsApplied") then 1 else 0 :=
  trigger_count msgs (AgentLoopState.mk initPacer false g) rfl

/-- Counterexample to C7 as stated: a session with a configured greeting
still sends the trigger on `SettingsApplied`. -/
theorem trigger_sent_despite_greeting_cex :
    (runAgentLoop
        (AgentLoopState.mk initPacer false (some "Hello! This is your medical office calling."))
        [AgentMessage.mk "SettingsApplied" []]).2
      = [RelayAction.injectUserMessage "hello", RelayAction.logEvent "SettingsApplied"] := rfl

/-! ## C1 : function call requests are never dispatched by the loop -/

/-- C1 (code bug): a `FunctionCallRequest` event reaching the
inbound-from-agent loop is only logged — the loop performs no tool dispatch
and sends no function result, for this event or any other; the dispatching
code (`DeepgramVoiceAgent._handle_function_call`) has no call site in the
repository. -/
theorem function_call_request_only_logged :
    (handleAgentMessage (AgentLoopState.mk initPacer true none)
        (AgentMessage.mk "FunctionCallRequest" [])).2
      = [RelayAction.logEvent "FunctionCallRequest"]
    ∧ ∀ (st : AgentLoopState) (msg : AgentMessage),
        (handleAgentMessage st msg).2.filter isToolAction = [] := by
  refine ⟨rfl, ?_⟩
  intro st msg
  have hs : (settingsStep st msg).2.filter isToolAction = [] := by
    simp only [settingsStep]
    split_ifs <;> simp [isToolAction]
  simp only [handleAgentMessage]
  split_ifs <;> simp_all [isToolAction]

/-! ## C4 : teardown disconnects once but never removes the context -/

/-- C4 amended: for every session that enters Streaming (valid context and
successful agent connect), the finalization runs exactly once — one
`agentDisconnect`, whether or not the loops exited via error — but the
session context entry is NOT removed: the store is returned unchanged. -/
theorem cleanup_disconnect_once_store_kept (store : List (String × CallContext))
    (call_id : String) (context : CallContext) (e : Bool)
    (hfind : storeGet store call_id = some context)
    (hsuccess : context.success = true) :
    ((handle_voice_websocket store call_id true e).1.count SessionAction.agentDisconnect = 1)
    ∧ (handle_voice_websocket store call_id true e).2 = store := by
  have hrw : handle_voice_websocket store call_id true e
      = ([SessionAction.wsAccept, SessionAction.agentConnect, SessionAction.runLoops,
          SessionAction.agentDisconnect], store) := by
    simp [handle_voice_websocket, hfind, hsuccess]
  rw [hrw]
  refine ⟨?_, rfl⟩
  dsimp only
  decide

/-- Witness for C4 (amended) on a concrete successful, loop-erroring session. -/
theorem cleanup_disconnect_once_store_kept_witness :
    ((handle_voice_websocket [("call1", ctxExample)] "call1" true true).1.count
        SessionAction.agentDisconnect = 1)
    ∧ (handle_voice_websocket [("call1", ctxExample)] "call1" true true).2
        = [("call1", ctxExample)] :=
  cleanup_disconnect_once_store_kept [("call1", ctxExample)] "call1" ctxExample true
    (by decide) (by decide)

/-- Counterexample to C4 as stated: after a fully successful session for
`"call1"`, the context entry is still present in the store — cleanup never
removes it. -/
theorem context_never_removed_cex :
    (handle_voice_websocket [("call1", ctxExample)] "call1" true false).2
      = [("call1", ctxExample)]
    ∧ storeGet (handle_voice_websocket [("call1", ctxExample)] "call1" true false).2 "call1"
      = some ctxExample :=
  ⟨rfl, rfl⟩

/-! ## C9 : absent or invalid session context -/

/-- C9: when the telephony leg connects with an identifier that has no
valid entry in the store (absent, or present but unsuccessful), the handler
accepts and immediately closes with application error code 1008; the trace
contains no `agentConnect` and no `runLoops`, and the store is unchanged. -/
theorem absent_session_rejected (store : List (String × CallContext))
    (call_id : String) (connect_ok e : Bool)
    (habs : ∀ context, storeGet store call_id = some context → context.success = false) :
    handle_voice_websocket store call_id connect_ok e
      = ([SessionAction.wsAccept, SessionAction.wsClose 1008], store) := by
  cases hs : storeGet store call_id with
  | none => simp [handle_voice_websocket, hs]
  | some context =>
    have hc := habs context hs
    simp [handle_voice_websocket, hs, hc]

/-- Witness for C9: an identifier never put into the store. -/
theorem absent_session_rejected_witness :
    handle_voice_websocket [] "callX" true false
      = ([SessionAction.wsAccept, SessionAction.wsClose 1008], []) :=
  absent_session_rejected [] "callX" true false
    (fun context h => by simp [storeGet] at h)

/-! ## C10 : the tool executor is total -/

/-- C10: for every function name (declared or not), argument mapping, and
behavior of the inner tools (including raising), `execute_function`
returns a JSON value: the try-block result when the body succeeds, and the
structured OperationOutcome exception payload when the body raised — an
exception never escapes. -/
theorem execute_function_never_raises (env : ToolEnv) (function_name : String)
    (arguments : List (String × String)) :
    (∃ v, execute_function_body env function_name arguments = Except.ok v
        ∧ execute_function env function_name arguments = v)
    ∨ (∃ e, execute_function_body env function_name arguments = Except.error e
        ∧ execute_function env function_name arguments
            = operationOutcome "error" "exception" e) := by
  cases hb : execute_function_body env function_name arguments with
  | ok v => exact Or.inl ⟨v, rfl, by simp [execute_function, hb]⟩
  | error e => exact Or.inr ⟨e, rfl, by simp [execute_function, hb]⟩

/-- An undeclared function name yields the structured not-supported
payload, whatever the environment and arguments. -/
theorem execute_function_unknown_example (env : ToolEnv)
    (arguments : List (String × String)) :
    execute_function env "transfer_funds" arguments
      = operationOutcome "error" "not-supported" "Unknown function: transfer_funds" := by
  simp [execute_function, execute_function_body]

/-- Even when the inner tool raises, `confirm_appointment` resolves to the
structured exception payload instead of propagating. -/
theorem execute_function_raise_example :
    execute_function envBoom "confirm_appointment" [("appointment_id", "X")]
      = operationOutcome "error" "exception" "boom" := rfl
